import Mathlib

/-!
Verification development for the CryptoBit coin price tracker (`app.py`).

The source is a single Flask script: a background loop polls a price API,
appends samples to capped per-coin rolling buffers at four granularities,
computes RSI/EMA/momentum/volume indicators, combines them into a heuristic
score, and serves the latest snapshot over HTTP.

The embedding below translates the relevant parts of `app.py` into Lean:
prices and volumes are rationals (exact arithmetic standing for the Python
floats), Python lists are Lean lists, Python dicts are insertion-ordered
association lists, fallible remote calls are `Except` values, and the
background loop body is an explicit state-and-trace step function.
-/

namespace CryptoBit

/-- `CHECK_INTERVAL = 15` (app.py line 21). -/
def CHECK_INTERVAL : Nat := 15

/-- The tracked coins dict `COINS` (app.py lines 25-31), as an
insertion-ordered association list from ticker symbol to CoinGecko id. -/
def COINS : List (String × String) :=
  [("BTC", "bitcoin"), ("ETH", "ethereum"), ("SOL", "solana"),
   ("TON", "toncoin"), ("BNB", "binancecoin")]

/-- The keys of `COINS` (the ticker symbols). -/
def COINSkeys : List String := COINS.map Prod.fst

/-- The per-coin entry of the global `data` dict (app.py lines 33-36):
rolling price/time buffers at four granularities, a 1-minute volume buffer,
and the `last_signal`/`score` fields (declared in the source, never updated
by the loop). -/
structure CoinData where
  prices_1m : List ℚ
  times_1m : List String
  prices_5m : List ℚ
  times_5m : List String
  prices_15m : List ℚ
  times_15m : List String
  prices_1h : List ℚ
  times_1h : List String
  volumes_1m : List ℚ
  last_signal : String
  score : ℤ
deriving DecidableEq

/-- The initial per-coin entry: all buffers empty, `last_signal = ""`,
`score = 0` (app.py lines 33-36). -/
def initCoinData : CoinData :=
  { prices_1m := [], times_1m := [], prices_5m := [], times_5m := []
  , prices_15m := [], times_15m := [], prices_1h := [], times_1h := []
  , volumes_1m := [], last_signal := "", score := 0 }

/-- Lines 173-179 of `update_data`: append the new sample to the 1-minute
price/time/volume buffers, then evict the oldest entry of each when the
1-minute price buffer exceeds 500. Python `list.pop(0)` is `List.tail`. -/
def cap1m (cd : CoinData) (price : ℚ) (now : String) (volume : ℚ) : CoinData :=
  let cda : CoinData :=
    { cd with prices_1m := cd.prices_1m ++ [price]
            , times_1m := cd.times_1m ++ [now]
            , volumes_1m := cd.volumes_1m ++ [volume] }
  if cda.prices_1m.length > 500 then
    { cda with prices_1m := cda.prices_1m.tail
             , times_1m := cda.times_1m.tail
             , volumes_1m := cda.volumes_1m.tail }
  else cda

/-- Lines 182-187: when the (post-eviction) 1-minute length is divisible
by 5, append the sample to the 5-minute buffers and evict when over 200. -/
def resample5 (cd : CoinData) (price : ℚ) (now : String) : CoinData :=
  if cd.prices_1m.length % 5 = 0 then
    let cda : CoinData := { cd with prices_5m := cd.prices_5m ++ [price]
                                  , times_5m := cd.times_5m ++ [now] }
    if cda.prices_5m.length > 200 then
      { cda with prices_5m := cda.prices_5m.tail, times_5m := cda.times_5m.tail }
    else cda
  else cd

/-- Lines 188-193: when the 1-minute length is divisible by 15, append to
the 15-minute buffers and evict when over 100. -/
def resample15 (cd : CoinData) (price : ℚ) (now : String) : CoinData :=
  if cd.prices_1m.length % 15 = 0 then
    let cda : CoinData := { cd with prices_15m := cd.prices_15m ++ [price]
                                  , times_15m := cd.times_15m ++ [now] }
    if cda.prices_15m.length > 100 then
      { cda with prices_15m := cda.prices_15m.tail, times_15m := cda.times_15m.tail }
    else cda
  else cd

/-- Lines 194-199: when the 1-minute length is divisible by 60, append to
the 1-hour buffers and evict when over 50. -/
def resample60 (cd : CoinData) (price : ℚ) (now : String) : CoinData :=
  if cd.prices_1m.length % 60 = 0 then
    let cda : CoinData := { cd with prices_1h := cd.prices_1h ++ [price]
                                  , times_1h := cd.times_1h ++ [now] }
    if cda.prices_1h.length > 50 then
      { cda with prices_1h := cda.prices_1h.tail, times_1h := cda.times_1h.tail }
    else cda
  else cd

/-- The buffer-maintenance portion of one `update_data` iteration for one
coin (app.py lines 173-199): the four sequential statement blocks of the
source, composed in source order. -/
def update_data_step (cd : CoinData) (price : ℚ) (now : String) (volume : ℚ) :
    CoinData :=
  resample60 (resample15 (resample5 (cap1m cd price now volume) price now)
    price now) price now

/-- Iterating `update_data_step` over a list of incoming samples: the effect
of successive `update_data` iterations on one coin. -/
def update_data_iter (cd : CoinData) : List (ℚ × String × ℚ) → CoinData
  | [] => cd
  | (p, t, v) :: rest => update_data_iter (update_data_step cd p t v) rest

/-! ### Indicator functions (app.py lines 68-82) -/

/-- `np.diff`: consecutive differences, `deltas[i] = prices[i+1] - prices[i]`. -/
def npDiff (l : List ℚ) : List ℚ :=
  List.zipWith (fun a b => b - a) l l.tail

/-- The Python slice `xs[-period:]`. For `period ≥ 1` this is the last
`min period (length xs)` elements; for `period = 0` Python reads `xs[-0:]`
as `xs[0:]`, the whole list. -/
def lastSlice (xs : List ℚ) (period : Nat) : List ℚ :=
  if period = 0 then xs else xs.drop (xs.length - period)

/-- `np.mean` of a list: sum divided by length (the source only applies it
to non-empty lists, guarded by `np.any`). -/
def npMean (l : List ℚ) : ℚ := l.sum / (l.length : ℚ)

/-- `rsi(prices, period=14)` (app.py lines 68-78). `gains[gains > 0]` keeps
the strictly positive entries; `np.any(gains > 0)` is their non-emptiness;
the fallback average loss is `0.001`. -/
def rsi (prices : List ℚ) (period : Nat) : ℚ :=
  if prices.length < period + 1 then 50
  else
    let deltas := npDiff prices
    let gains := lastSlice deltas period
    let losses := gains.map (fun d => -d)
    let gain : ℚ :=
      if (gains.filter (fun d => 0 < d)) ≠ [] then
        npMean (gains.filter (fun d => 0 < d))
      else 0
    let loss : ℚ :=
      if (losses.filter (fun d => 0 < d)) ≠ [] then
        npMean (losses.filter (fun d => 0 < d))
      else 1/1000
    if loss = 0 then 100
    else 100 - 100 / (1 + gain / loss)

/-- `ema(prices, period)` (app.py lines 80-82).
`pd.Series(prices).ewm(span=period, adjust=False).mean().iloc[-1]` computes
the recursion `y_0 = x_0`, `y_t = (1 - a) * y_(t-1) + a * x_t` with
`a = 2 / (span + 1)` and returns the last value; the empty list returns 0
via the guard. -/
def ema (prices : List ℚ) (period : Nat) : ℚ :=
  match prices with
  | [] => 0
  | p :: rest =>
    let a : ℚ := 2 / ((period : ℚ) + 1)
    rest.foldl (fun acc x => (1 - a) * acc + a * x) p

/-! ### Remote fetchers (app.py lines 40-66) -/

/-- One element of the CoinGecko markets JSON array, with the fields the
source reads. `symbol` is `none` when the key is absent (then `item['symbol']`
raises `KeyError`); the other three are read with `.get`, so absence is a
`none` handled by a default, never an exception. -/
structure MarketItem where
  symbol : Option String
  current_price : Option ℚ
  price_change_percentage_24h : Option ℚ
  total_volume : Option ℚ
deriving DecidableEq

/-- Python dict assignment `d[k] = v` on an insertion-ordered association
list: overwrite in place when the key exists, else append. -/
def dictSet {α : Type} : List (String × α) → String → α → List (String × α)
  | [], k, v => [(k, v)]
  | (k', v') :: rest, k, v =>
    if k' = k then (k, v) :: rest else (k', v') :: dictSet rest k v

/-- Python `d.get(k)`: first value stored under `k`, if any. -/
def dictGet? {α : Type} : List (String × α) → String → Option α
  | [], _ => none
  | (k', v') :: rest, k => if k' = k then some v' else dictGet? rest k

/-- Python `d.get(k, dflt)`. -/
def dictGetD {α : Type} (d : List (String × α)) (k : String) (dflt : α) : α :=
  (dictGet? d k).getD dflt

/-- The result triple of `get_prices`: the `prices`, `changes` and `volumes`
dicts. A price is `Option ℚ` because `item.get('current_price')` may store
`None`. -/
abbrev PricesResult :=
  List (String × Option ℚ) × List (String × ℚ) × List (String × ℚ)

/-- The loop body of `get_prices` over the parsed JSON array (app.py lines
51-56), inside the `try`: reading `item['symbol']` raises when the key is
missing, which the bare `except` turns into the default return. -/
def get_prices_go : List MarketItem → PricesResult → Except String PricesResult
  | [], acc => Except.ok acc
  | item :: rest, (ps, cs, vs) =>
    match item.symbol with
    | none => Except.error "KeyError: symbol"
    | some s =>
      let symbol := s.toUpper
      if symbol ∈ COINSkeys then
        get_prices_go rest
          (dictSet ps symbol item.current_price,
           dictSet cs symbol (item.price_change_percentage_24h.getD 0),
           dictSet vs symbol (item.total_volume.getD 0))
      else
        get_prices_go rest (ps, cs, vs)

/-- `get_prices()` (app.py lines 40-59). The remote call and JSON parse are
modelled by the `fetch` argument: `Except.error` stands for any raised
exception (timeout, connection error, malformed response). The bare
`except:` maps every failure, of the fetch or of the loop body, to the
default `({}, {}, {})`. -/
def get_prices (fetch : Except String (List MarketItem)) : PricesResult :=
  match fetch.bind (fun items => get_prices_go items ([], [], [])) with
  | Except.ok r => r
  | Except.error _ => ([], [], [])

/-- `get_fear_greed()` (app.py lines 61-66). The `fetch` argument models
`int(r.json()["data"][0]["value"])`: any raised exception (timeout, missing
key, bad index, non-integer value) is an `Except.error`, which the bare
`except:` turns into the default 50. -/
def get_fear_greed (fetch : Except String ℤ) : ℤ :=
  match fetch with
  | Except.ok v => v
  | Except.error _ => 50

/-! ### Signal scoring (app.py lines 84-158) -/

/-- The score/reasons accumulation of `predict_signal` (app.py lines 97-146),
run after the bootstrap guard: multi-timeframe RSI and EMA tests, momentum
tests, volume analysis, and the fear/greed adjustments, applied in source
order. The fear/greed value fetched at line 144 is the `fg` argument. The
`try/except` around the EMA block never fires (`ema` guards the empty list
itself), so it adds nothing here. Python negative indexing `xs[-k]` is
`xs.getD (xs.length - k) 0` under the length guards of the source. -/
def signal_score (coin_data : CoinData) (fg : ℤ) : ℤ × List String :=
  let prices_1m := coin_data.prices_1m
  let prices_5m := coin_data.prices_5m
  let prices_15m := coin_data.prices_15m
  let prices_1h := coin_data.prices_1h
  let volumes_1m := coin_data.volumes_1m
  let rsi_1m := rsi prices_1m 14
  let rsi_5m := if prices_5m.length > 14 then rsi prices_5m 14 else rsi_1m
  let rsi_15m := if prices_15m.length > 14 then rsi prices_15m 14 else rsi_1m
  let rsi_1h := if prices_1h.length > 14 then rsi prices_1h 14 else rsi_1m
  let sr0 : ℤ × List String := (0, [])
  let sr1 : ℤ × List String :=
    if rsi_1m < 27 then (sr0.1 + 20, sr0.2 ++ ["1m RSI Oversold"]) else sr0
  let sr2 : ℤ × List String :=
    if rsi_1m > 73 then (sr1.1 - 18, sr1.2 ++ ["1m RSI Overbought"]) else sr1
  let sr3 : ℤ × List String :=
    if rsi_5m < 30 then (sr2.1 + 15, sr2.2 ++ ["5m RSI Support"]) else sr2
  let sr4 : ℤ × List String :=
    if rsi_15m < 35 then (sr3.1 + 12, sr3.2 ++ ["15m RSI Bullish"]) else sr3
  let sr5 : ℤ × List String :=
    if rsi_1h < 40 then (sr4.1 + 10, sr4.2 ++ ["1h RSI Strong Buy Zone"]) else sr4
  let sr6 : ℤ × List String :=
    if rsi_1h > 70 then (sr5.1 - 15, sr5.2 ++ ["1h RSI Overbought"]) else sr5
  let ema12_1m := ema prices_1m 12
  let ema26_1m := ema prices_1m 26
  let ema12_15m := if prices_15m.length > 26 then ema prices_15m 12 else ema12_1m
  let ema26_15m := if prices_15m.length > 26 then ema prices_15m 26 else ema26_1m
  let sr7 : ℤ × List String :=
    if ema12_1m > ema26_1m then (sr6.1 + 18, sr6.2 ++ ["1m Golden Cross"])
    else (sr6.1 - 18, sr6.2 ++ ["1m Death Cross"])
  let sr8 : ℤ × List String :=
    if ema12_15m > ema26_15m then (sr7.1 + 14, sr7.2 ++ ["15m Bull Trend"]) else sr7
  let sr9 : ℤ × List String :=
    if prices_1m.length ≥ 12 then
      let mom_1m :=
        (prices_1m.getD (prices_1m.length - 1) 0
           / prices_1m.getD (prices_1m.length - 12) 0 - 1) * 100
      let sra : ℤ × List String :=
        if mom_1m > 35/10 then (sr8.1 - 25, sr8.2 ++ ["1m Pump Risk"]) else sr8
      if mom_1m < -(35/10) then (sra.1 + 20, sra.2 ++ ["1m Bounce Likely"]) else sra
    else sr8
  let sr10 : ℤ × List String :=
    if prices_15m.length ≥ 4 then
      let mom_15m :=
        (prices_15m.getD (prices_15m.length - 1) 0
           / prices_15m.getD (prices_15m.length - 4) 0 - 1) * 100
      let sra : ℤ × List String :=
        if mom_15m > 5 then (sr9.1 - 20, sr9.2 ++ ["15m Overextended"]) else sr9
      if mom_15m < -5 then (sra.1 + 15, sra.2 ++ ["15m Oversold"]) else sra
    else sr9
  let sr11 : ℤ × List String :=
    if volumes_1m.length ≥ 10 then
      let avg_volume := npMean ((volumes_1m.drop (volumes_1m.length - 10)).take 9)
      let current_volume := volumes_1m.getD (volumes_1m.length - 1) 0
      let volume_change :=
        if avg_volume > 0 then (current_volume - avg_volume) / avg_volume else 0
      let price_change_short :=
        if prices_1m.length ≥ 5 then
          (prices_1m.getD (prices_1m.length - 1) 0
             - prices_1m.getD (prices_1m.length - 5) 0)
            / prices_1m.getD (prices_1m.length - 5) 0
        else 0
      if volume_change > 1/5 ∧ price_change_short > 0 then
        (sr10.1 + 15, sr10.2 ++ ["Rising Volume + Price"])
      else if volume_change > 1/5 ∧ price_change_short < 0 then
        (sr10.1 - 15, sr10.2 ++ ["Rising Volume + Dump"])
      else sr10
    else sr10
  let sr12 : ℤ × List String :=
    if fg < 20 then (sr11.1 + 30, sr11.2 ++ ["Market Extreme Fear"]) else sr11
  let sr13 : ℤ × List String :=
    if fg > 90 then (sr12.1 - 25, sr12.2 ++ ["Market Extreme Greed"]) else sr12
  sr13

/-- `predict_signal(coin_data)` (app.py lines 84-158). Returns
`(signal message, probability, colour class, reasons)`. `fg` is the
fear/greed value obtained by the `get_fear_greed()` call at line 144. -/
def predict_signal (coin_data : CoinData) (fg : ℤ) :
    String × ℤ × String × List String :=
  if coin_data.prices_1m.length < 60 then
    ("Collecting data...", 0, "text-warning", [])
  else
    let sr := signal_score coin_data fg
    let score := sr.1
    let reasons := sr.2
    let prob : ℤ := min 99 |score|
    if score ≥ 65 then ("STRONG BUY", prob, "text-success", reasons)
    else if score ≥ 35 then ("Bullish", prob, "text-info", reasons)
    else if score ≤ -65 then ("STRONG SELL", prob, "text-danger", reasons)
    else if score ≤ -35 then ("Bearish", prob, "text-purple", reasons)
    else ("Neutral", 25, "text-warning", reasons)

/-! ### The update loop as a state-and-trace step (app.py lines 160-240) -/

/-- The externally visible effects of one loop iteration: HTTP requests and
sleeps. Chart rendering and the log append have no modelled effect. -/
inductive Effect where
  | http_get (url : String) : Effect
  | sleep (seconds : Nat) : Effect
deriving DecidableEq

/-- Recognise a sleep effect. -/
def Effect.isSleep : Effect → Bool
  | Effect.sleep _ => true
  | _ => false

/-- The CoinGecko markets endpoint requested by `get_prices` (line 44). -/
def coingeckoURL : String := "https://api.coingecko.com/api/v3/coins/markets"

/-- The fear/greed endpoint requested by `get_fear_greed` (line 63). -/
def fngURL : String := "https://api.alternative.me/fng/"

/-- The per-coin body of the `for coin in COINS` loop (app.py lines 166-228)
restricted to state and effects: skip coins whose fetched price is missing
or `None` (line 168), otherwise run the buffer maintenance and record the
`get_fear_greed` request that `predict_signal` issues at line 144 unless it
returned at the bootstrap guard. Returns the updated `data` dict and the
effects, in source order. -/
def update_data_coins (prices : List (String × Option ℚ))
    (volumes : List (String × ℚ)) (now : String) :
    List String → List (String × CoinData) →
      List (String × CoinData) × List Effect
  | [], d => (d, [])
  | coin :: rest, d =>
    match (dictGet? prices coin).bind (fun x => x) with
    | none => update_data_coins prices volumes now rest d
    | some price =>
      let volume := dictGetD volumes coin 0
      let cd := update_data_step (dictGetD d coin initCoinData) price now volume
      let fngEffs : List Effect :=
        if cd.prices_1m.length < 60 then [] else [Effect.http_get fngURL]
      let r := update_data_coins prices volumes now rest (dictSet d coin cd)
      (r.1, fngEffs ++ r.2)

/-- One iteration of the `while True` body of `update_data` (app.py lines
161-240) as a state-and-trace step: fetch prices (one request, line 43),
fetch fear/greed (line 63), process each coin, and end with the fixed
`time.sleep(CHECK_INTERVAL)` (line 240). `fetchP` is the outcome of the
price request; the fear/greed outcomes only influence scores, never the
trace or the buffers, so they are not parameters here. -/
def update_data_iteration (d : List (String × CoinData))
    (fetchP : Except String (List MarketItem)) (now : String) :
    List (String × CoinData) × List Effect :=
  let pr := get_prices fetchP
  let r := update_data_coins pr.1 pr.2.2 now COINSkeys d
  (r.1, Effect.http_get coingeckoURL :: Effect.http_get fngURL ::
          (r.2 ++ [Effect.sleep CHECK_INTERVAL]))

/-! ### HTTP handlers and shared state (app.py lines 38, 245-251) -/

/-- The `latest_data` snapshot served by `/api/data` (app.py lines 230-233):
dashboard rows, fear/greed value, base64 charts, timestamp. -/
structure LatestData where
  dashboard : List (String × ℚ × ℤ × String)
  fg : ℤ
  charts : List (String × String)
  timestamp : String
deriving DecidableEq

/-- The shared in-memory state: the per-coin `data` dict and the
`latest_data` snapshot (app.py lines 33-38). -/
structure AppState where
  data : List (String × CoinData)
  latest_data : LatestData
deriving DecidableEq

/-- The `/api/data` handler (app.py lines 249-251) in state-passing form:
the body is `jsonify(latest_data)`, a read of the shared state with no
assignment, so the translated handler pairs its response with the state it
received. -/
def api_data (s : AppState) : AppState × LatestData :=
  (s, s.latest_data)

/-- `predict_signal` in state-passing form: its body (app.py lines 84-158)
reads fields of its `coin_data` argument and assigns none, so the
translation pairs the pure result with the unchanged shared state. -/
def predict_signalS (s : AppState) (coin_data : CoinData) (fg : ℤ) :
    AppState × (String × ℤ × String × List String) :=
  (s, predict_signal coin_data fg)

/-- `rsi` in state-passing form (app.py lines 68-78 contain no assignment
to shared state). -/
def rsiS (s : AppState) (prices : List ℚ) (period : Nat) : AppState × ℚ :=
  (s, rsi prices period)

/-- `ema` in state-passing form (app.py lines 80-82 contain no assignment
to shared state). -/
def emaS (s : AppState) (prices : List ℚ) (period : Nat) : AppState × ℚ :=
  (s, ema prices period)

/-! ### Spec-side reference definitions (for the refinement claims) -/

/-- Helper for `emaSpec`: `E_i = a * p_i + (1 - a) * E_(i-1)` carried left
to right over the remaining prices. -/
def emaSpecGo (a : ℚ) (e : ℚ) : List ℚ → ℚ
  | [] => e
  | p :: rest => emaSpecGo a (a * p + (1 - a) * e) rest

/-- The textbook Exponential Moving Average exactly as the claim words it:
smoothing factor `a = 2 / (period + 1)`, `E_0 = p_0`,
`E_i = a * p_i + (1 - a) * E_(i-1)`, returning the final `E`; 0 for the
empty list. -/
def emaSpec (prices : List ℚ) (period : Nat) : ℚ :=
  match prices with
  | [] => 0
  | p :: rest => emaSpecGo (2 / ((period : ℚ) + 1)) p rest

/-- The standard textbook RSI exactly as the claim words it, over the last
`period` price deltas: `100 - 100 / (1 + RS)` where `RS` is the ratio of
the period-average gain (sum of positive deltas divided by `period`) to the
period-average loss (sum of magnitudes of negative deltas divided by
`period`). -/
def rsiSpec (prices : List ℚ) (period : Nat) : ℚ :=
  let deltas := lastSlice (npDiff prices) period
  let avgGain : ℚ := (deltas.filter (fun d => 0 < d)).sum / (period : ℚ)
  let avgLoss : ℚ :=
    ((deltas.filter (fun d => d < 0)).map (fun d => -d)).sum / (period : ℚ)
  100 - 100 / (1 + avgGain / avgLoss)

/-- The RSI the code actually computes, stated in spec wording: the gain is
the arithmetic mean of the strictly positive deltas among the last `period`
deltas (0 when there are none) and the loss is the arithmetic mean of the
magnitudes of the strictly negative deltas (the fallback 0.001 when there
are none); short inputs return the neutral 50. -/
def rsiAmendedSpec (prices : List ℚ) (period : Nat) : ℚ :=
  if prices.length < period + 1 then 50
  else
    let deltas := lastSlice (npDiff prices) period
    let posD := deltas.filter (fun d => 0 < d)
    let negD := deltas.filter (fun d => d < 0)
    let g : ℚ := if posD = [] then 0 else posD.sum / (posD.length : ℚ)
    let l : ℚ :=
      if negD = [] then 1/1000
      else (negD.map (fun d => -d)).sum / (negD.length : ℚ)
    100 - 100 / (1 + g / l)

/-! ## Helper lemmas -/

/-- The foldl form of the EMA recursion agrees with the index form. -/
theorem emaSpecGo_foldl (a : ℚ) : ∀ (rest : List ℚ) (e : ℚ),
    rest.foldl (fun acc x => (1 - a) * acc + a * x) e = emaSpecGo a e rest
  | [], _ => rfl
  | p :: ps, e => by
    simp only [List.foldl_cons, emaSpecGo]
    rw [emaSpecGo_foldl a ps]
    congr 1
    ring

/-- Negating a list and keeping the positive entries is the same as keeping
the negative entries and negating them. -/
theorem filter_pos_map_neg (l : List ℚ) :
    (l.map (fun d => -d)).filter (fun d => 0 < d) =
      (l.filter (fun d => d < 0)).map (fun d => -d) := by
  induction l with
  | nil => rfl
  | cons x xs ih =>
    by_cases hx : x < 0
    · have hx' : (0 : ℚ) < -x := by linarith
      simp [List.filter_cons, hx, hx', ih]
    · have hx' : ¬(0 : ℚ) < -x := by
        intro h
        exact hx (by linarith)
      simp [List.filter_cons, hx, hx', ih]

/-- The mean of a non-empty list of positive rationals is positive. -/
theorem npMean_pos (l : List ℚ) (h : l ≠ []) (hx : ∀ x ∈ l, 0 < x) :
    0 < npMean l := by
  have hsum : 0 < l.sum := List.sum_pos l hx h
  have hlen : 0 < (l.length : ℚ) := by
    have : l.length ≠ 0 := by
      intro h0
      exact h (List.eq_nil_of_length_eq_zero h0)
    exact_mod_cast Nat.pos_of_ne_zero this
  exact div_pos hsum hlen

/-- The mean of a list kept by the positive filter is positive when the
filter result is non-empty. -/
theorem npMean_filter_pos_pos (l : List ℚ)
    (h : l.filter (fun d => 0 < d) ≠ []) :
    0 < npMean (l.filter (fun d => 0 < d)) := by
  refine npMean_pos _ h ?_
  intro x hx
  have := List.of_mem_filter hx
  simpa using this

/-- The `gain` expression of `rsi` is non-negative. -/
theorem rsi_gain_nonneg (gains : List ℚ) :
    (0 : ℚ) ≤
      (if (gains.filter (fun d => 0 < d)) ≠ [] then
        npMean (gains.filter (fun d => 0 < d)) else 0) := by
  split_ifs with h
  · exact le_of_lt (npMean_filter_pos_pos gains h)
  · exact le_refl 0

/-- The `loss` expression of `rsi` is strictly positive: either it is the
mean of a non-empty list of positive values, or the fallback `0.001`. -/
theorem rsi_loss_pos (losses : List ℚ) :
    (0 : ℚ) <
      (if (losses.filter (fun d => 0 < d)) ≠ [] then
        npMean (losses.filter (fun d => 0 < d)) else 1/1000) := by
  split_ifs with h
  · exact npMean_filter_pos_pos losses h
  · norm_num

/-- Field values of `cap1m`. -/
theorem cap1m_fields (cd : CoinData) (p : ℚ) (t : String) (v : ℚ) :
    (cap1m cd p t v).prices_1m =
        (if (cd.prices_1m ++ [p]).length > 500 then (cd.prices_1m ++ [p]).tail
         else cd.prices_1m ++ [p]) ∧
      (cap1m cd p t v).times_1m =
        (if (cd.prices_1m ++ [p]).length > 500 then (cd.times_1m ++ [t]).tail
         else cd.times_1m ++ [t]) ∧
      (cap1m cd p t v).volumes_1m =
        (if (cd.prices_1m ++ [p]).length > 500 then (cd.volumes_1m ++ [v]).tail
         else cd.volumes_1m ++ [v]) ∧
      (cap1m cd p t v).prices_5m = cd.prices_5m ∧
      (cap1m cd p t v).times_5m = cd.times_5m ∧
      (cap1m cd p t v).prices_15m = cd.prices_15m ∧
      (cap1m cd p t v).times_15m = cd.times_15m ∧
      (cap1m cd p t v).prices_1h = cd.prices_1h ∧
      (cap1m cd p t v).times_1h = cd.times_1h := by
  simp only [cap1m]
  split_ifs <;> simp

/-- Field values of `resample5`. -/
theorem resample5_fields (cd : CoinData) (p : ℚ) (t : String) :
    (resample5 cd p t).prices_5m =
        (if cd.prices_1m.length % 5 = 0 then
          (if (cd.prices_5m ++ [p]).length > 200 then (cd.prices_5m ++ [p]).tail
           else cd.prices_5m ++ [p])
         else cd.prices_5m) ∧
      (resample5 cd p t).times_5m =
        (if cd.prices_1m.length % 5 = 0 then
          (if (cd.prices_5m ++ [p]).length > 200 then (cd.times_5m ++ [t]).tail
           else cd.times_5m ++ [t])
         else cd.times_5m) ∧
      (resample5 cd p t).prices_1m = cd.prices_1m ∧
      (resample5 cd p t).times_1m = cd.times_1m ∧
      (resample5 cd p t).volumes_1m = cd.volumes_1m ∧
      (resample5 cd p t).prices_15m = cd.prices_15m ∧
      (resample5 cd p t).times_15m = cd.times_15m ∧
      (resample5 cd p t).prices_1h = cd.prices_1h ∧
      (resample5 cd p t).times_1h = cd.times_1h := by
  simp only [resample5]
  split_ifs <;> simp_all

/-- Field values of `resample15`. -/
theorem resample15_fields (cd : CoinData) (p : ℚ) (t : String) :
    (resample15 cd p t).prices_15m =
        (if cd.prices_1m.length % 15 = 0 then
          (if (cd.prices_15m ++ [p]).length > 100 then (cd.prices_15m ++ [p]).tail
           else cd.prices_15m ++ [p])
         else cd.prices_15m) ∧
      (resample15 cd p t).times_15m =
        (if cd.prices_1m.length % 15 = 0 then
          (if (cd.prices_15m ++ [p]).length > 100 then (cd.times_15m ++ [t]).tail
           else cd.times_15m ++ [t])
         else cd.times_15m) ∧
      (resample15 cd p t).prices_1m = cd.prices_1m ∧
      (resample15 cd p t).times_1m = cd.times_1m ∧
      (resample15 cd p t).volumes_1m = cd.volumes_1m ∧
      (resample15 cd p t).prices_5m = cd.prices_5m ∧
      (resample15 cd p t).times_5m = cd.times_5m ∧
      (resample15 cd p t).prices_1h = cd.prices_1h ∧
      (resample15 cd p t).times_1h = cd.times_1h := by
  simp only [resample15]
  split_ifs <;> simp_all

/-- Field values of `resample60`. -/
theorem resample60_fields (cd : CoinData) (p : ℚ) (t : String) :
    (resample60 cd p t).prices_1h =
        (if cd.prices_1m.length % 60 = 0 then
          (if (cd.prices_1h ++ [p]).length > 50 then (cd.prices_1h ++ [p]).tail
           else cd.prices_1h ++ [p])
         else cd.prices_1h) ∧
      (resample60 cd p t).times_1h =
        (if cd.prices_1m.length % 60 = 0 then
          (if (cd.prices_1h ++ [p]).length > 50 then (cd.times_1h ++ [t]).tail
           else cd.times_1h ++ [t])
         else cd.times_1h) ∧
      (resample60 cd p t).prices_1m = cd.prices_1m ∧
      (resample60 cd p t).times_1m = cd.times_1m ∧
      (resample60 cd p t).volumes_1m = cd.volumes_1m ∧
      (resample60 cd p t).prices_5m = cd.prices_5m ∧
      (resample60 cd p t).times_5m = cd.times_5m ∧
      (resample60 cd p t).prices_15m = cd.prices_15m ∧
      (resample60 cd p t).times_15m = cd.times_15m := by
  simp only [resample60]
  split_ifs <;> simp_all

/-- The 1-minute buffers after one update step: append, then evict the
head when over 500; time and volume buffers are evicted together with the
price buffer, on the price-buffer condition. -/
theorem step_1m (cd : CoinData) (p : ℚ) (t : String) (v : ℚ) :
    (update_data_step cd p t v).prices_1m =
        (if (cd.prices_1m ++ [p]).length > 500 then (cd.prices_1m ++ [p]).tail
         else cd.prices_1m ++ [p]) ∧
      (update_data_step cd p t v).times_1m =
        (if (cd.prices_1m ++ [p]).length > 500 then (cd.times_1m ++ [t]).tail
         else cd.times_1m ++ [t]) ∧
      (update_data_step cd p t v).volumes_1m =
        (if (cd.prices_1m ++ [p]).length > 500 then (cd.volumes_1m ++ [v]).tail
         else cd.volumes_1m ++ [v]) := by
  simp only [update_data_step]
  rw [(resample60_fields _ p t).2.2.1, (resample60_fields _ p t).2.2.2.1,
    (resample60_fields _ p t).2.2.2.2.1,
    (resample15_fields _ p t).2.2.1, (resample15_fields _ p t).2.2.2.1,
    (resample15_fields _ p t).2.2.2.2.1,
    (resample5_fields _ p t).2.2.1, (resample5_fields _ p t).2.2.2.1,
    (resample5_fields _ p t).2.2.2.2.1]
  exact ⟨(cap1m_fields cd p t v).1, (cap1m_fields cd p t v).2.1,
    (cap1m_fields cd p t v).2.2.1⟩

/-- The 5-minute buffers after one update step: appended (with cap 200)
exactly when the post-eviction 1-minute length is divisible by 5. -/
theorem step_5m (cd : CoinData) (p : ℚ) (t : String) (v : ℚ) :
    (update_data_step cd p t v).prices_5m =
        (if (update_data_step cd p t v).prices_1m.length % 5 = 0 then
          (if (cd.prices_5m ++ [p]).length > 200 then (cd.prices_5m ++ [p]).tail
           else cd.prices_5m ++ [p])
         else cd.prices_5m) ∧
      (update_data_step cd p t v).times_5m =
        (if (update_data_step cd p t v).prices_1m.length % 5 = 0 then
          (if (cd.prices_5m ++ [p]).length > 200 then (cd.times_5m ++ [t]).tail
           else cd.times_5m ++ [t])
         else cd.times_5m) := by
  have h1m : (update_data_step cd p t v).prices_1m = (cap1m cd p t v).prices_1m := by
    simp only [update_data_step]
    rw [(resample60_fields _ p t).2.2.1, (resample15_fields _ p t).2.2.1,
      (resample5_fields _ p t).2.2.1]
  rw [h1m]
  simp only [update_data_step]
  rw [(resample60_fields _ p t).2.2.2.2.2.1, (resample60_fields _ p t).2.2.2.2.2.2.1,
    (resample15_fields _ p t).2.2.2.2.2.1, (resample15_fields _ p t).2.2.2.2.2.2.1,
    (resample5_fields _ p t).1, (resample5_fields _ p t).2.1,
    (cap1m_fields cd p t v).2.2.2.1, (cap1m_fields cd p t v).2.2.2.2.1]
  exact ⟨rfl, rfl⟩

/-- The 15-minute buffers after one update step: appended (with cap 100)
exactly when the post-eviction 1-minute length is divisible by 15. -/
theorem step_15m (cd : CoinData) (p : ℚ) (t : String) (v : ℚ) :
    (update_data_step cd p t v).prices_15m =
        (if (update_data_step cd p t v).prices_1m.length % 15 = 0 then
          (if (cd.prices_15m ++ [p]).length > 100 then (cd.prices_15m ++ [p]).tail
           else cd.prices_15m ++ [p])
         else cd.prices_15m) ∧
      (update_data_step cd p t v).times_15m =
        (if (update_data_step cd p t v).prices_1m.length % 15 = 0 then
          (if (cd.prices_15m ++ [p]).length > 100 then (cd.times_15m ++ [t]).tail
           else cd.times_15m ++ [t])
         else cd.times_15m) := by
  have h1m : (update_data_step cd p t v).prices_1m = (cap1m cd p t v).prices_1m := by
    simp only [update_data_step]
    rw [(resample60_fields _ p t).2.2.1, (resample15_fields _ p t).2.2.1,
      (resample5_fields _ p t).2.2.1]
  have h5keeps1m : (resample5 (cap1m cd p t v) p t).prices_1m =
      (cap1m cd p t v).prices_1m := (resample5_fields _ p t).2.2.1
  rw [h1m]
  simp only [update_data_step]
  rw [(resample60_fields _ p t).2.2.2.2.2.2.2.1,
    (resample60_fields _ p t).2.2.2.2.2.2.2.2,
    (resample15_fields _ p t).1, (resample15_fields _ p t).2.1,
    (resample5_fields _ p t).2.2.2.2.2.1, (resample5_fields _ p t).2.2.2.2.2.2.1,
    (cap1m_fields cd p t v).2.2.2.2.2.1, (cap1m_fields cd p t v).2.2.2.2.2.2.1,
    h5keeps1m]
  exact ⟨rfl, rfl⟩

/-- The 1-hour buffers after one update step: appended (with cap 50)
exactly when the post-eviction 1-minute length is divisible by 60. -/
theorem step_1h (cd : CoinData) (p : ℚ) (t : String) (v : ℚ) :
    (update_data_step cd p t v).prices_1h =
        (if (update_data_step cd p t v).prices_1m.length % 60 = 0 then
          (if (cd.prices_1h ++ [p]).length > 50 then (cd.prices_1h ++ [p]).tail
           else cd.prices_1h ++ [p])
         else cd.prices_1h) ∧
      (update_data_step cd p t v).times_1h =
        (if (update_data_step cd p t v).prices_1m.length % 60 = 0 then
          (if (cd.prices_1h ++ [p]).length > 50 then (cd.times_1h ++ [t]).tail
           else cd.times_1h ++ [t])
         else cd.times_1h) := by
  have h1m : (update_data_step cd p t v).prices_1m = (cap1m cd p t v).prices_1m := by
    simp only [update_data_step]
    rw [(resample60_fields _ p t).2.2.1, (resample15_fields _ p t).2.2.1,
      (resample5_fields _ p t).2.2.1]
  have h155keeps1m : (resample15 (resample5 (cap1m cd p t v) p t) p t).prices_1m =
      (cap1m cd p t v).prices_1m := by
    rw [(resample15_fields _ p t).2.2.1, (resample5_fields _ p t).2.2.1]
  rw [h1m]
  simp only [update_data_step]
  rw [(resample60_fields _ p t).1, (resample60_fields _ p t).2.1,
    (resample15_fields _ p t).2.2.2.2.2.2.2.1,
    (resample15_fields _ p t).2.2.2.2.2.2.2.2,
    (resample5_fields _ p t).2.2.2.2.2.2.2.1,
    (resample5_fields _ p t).2.2.2.2.2.2.2.2,
    (cap1m_fields cd p t v).2.2.2.2.2.2.2.1,
    (cap1m_fields cd p t v).2.2.2.2.2.2.2.2,
    h155keeps1m]
  exact ⟨rfl, rfl⟩

/-! ## Claims -/

/-- C1: after the buffer-maintenance step of every update iteration, each
rolling buffer holds at most its fixed cap (500 for the 1-minute
price/time/volume buffers, 200 for 5-minute, 100 for 15-minute, 50 for
1-hour), and an append evicts exactly the oldest element when the buffer is
at its cap while appends below the cap preserve all existing elements, so
each buffer keeps the most recent samples in arrival order. -/
theorem buffers_capped (cd : CoinData) (p : ℚ) (t : String) (v : ℚ)
    (h1 : cd.prices_1m.length ≤ 500) (h5 : cd.prices_5m.length ≤ 200)
    (h15 : cd.prices_15m.length ≤ 100) (h1h : cd.prices_1h.length ≤ 50)
    (hs1 : cd.times_1m.length = cd.prices_1m.length)
    (hs2 : cd.volumes_1m.length = cd.prices_1m.length)
    (hs3 : cd.times_5m.length = cd.prices_5m.length)
    (hs4 : cd.times_15m.length = cd.prices_15m.length)
    (hs5 : cd.times_1h.length = cd.prices_1h.length) :
    ((update_data_step cd p t v).prices_1m.length ≤ 500 ∧
      (update_data_step cd p t v).times_1m.length ≤ 500 ∧
      (update_data_step cd p t v).volumes_1m.length ≤ 500 ∧
      (update_data_step cd p t v).prices_5m.length ≤ 200 ∧
      (update_data_step cd p t v).times_5m.length ≤ 200 ∧
      (update_data_step cd p t v).prices_15m.length ≤ 100 ∧
      (update_data_step cd p t v).times_15m.length ≤ 100 ∧
      (update_data_step cd p t v).prices_1h.length ≤ 50 ∧
      (update_data_step cd p t v).times_1h.length ≤ 50) ∧
    (cd.prices_1m.length = 500 →
      (update_data_step cd p t v).prices_1m = cd.prices_1m.tail ++ [p]) ∧
    (cd.prices_1m.length < 500 →
      (update_data_step cd p t v).prices_1m = cd.prices_1m ++ [p]) ∧
    ((update_data_step cd p t v).prices_1m.length % 5 = 0 →
      (cd.prices_5m.length = 200 →
        (update_data_step cd p t v).prices_5m = cd.prices_5m.tail ++ [p]) ∧
      (cd.prices_5m.length < 200 →
        (update_data_step cd p t v).prices_5m = cd.prices_5m ++ [p])) ∧
    (¬ (update_data_step cd p t v).prices_1m.length % 5 = 0 →
      (update_data_step cd p t v).prices_5m = cd.prices_5m) ∧
    ((update_data_step cd p t v).prices_1m.length % 15 = 0 →
      (cd.prices_15m.length = 100 →
        (update_data_step cd p t v).prices_15m = cd.prices_15m.tail ++ [p]) ∧
      (cd.prices_15m.length < 100 →
        (update_data_step cd p t v).prices_15m = cd.prices_15m ++ [p])) ∧
    (¬ (update_data_step cd p t v).prices_1m.length % 15 = 0 →
      (update_data_step cd p t v).prices_15m = cd.prices_15m) ∧
    ((update_data_step cd p t v).prices_1m.length % 60 = 0 →
      (cd.prices_1h.length = 50 →
        (update_data_step cd p t v).prices_1h = cd.prices_1h.tail ++ [p]) ∧
      (cd.prices_1h.length < 50 →
        (update_data_step cd p t v).prices_1h = cd.prices_1h ++ [p])) ∧
    (¬ (update_data_step cd p t v).prices_1m.length % 60 = 0 →
      (update_data_step cd p t v).prices_1h = cd.prices_1h) := by
  obtain ⟨hp1, htt1, hvv1⟩ := step_1m cd p t v
  obtain ⟨hp5, htt5⟩ := step_5m cd p t v
  obtain ⟨hp15, htt15⟩ := step_15m cd p t v
  obtain ⟨hp1h, htt1h⟩ := step_1h cd p t v
  refine ⟨⟨?_, ?_, ?_, ?_, ?_, ?_, ?_, ?_, ?_⟩, ?_, ?_, ?_, ?_, ?_, ?_, ?_, ?_⟩
  · rw [hp1]
    split_ifs with hc <;>
      simp only [List.length_tail, List.length_append, List.length_cons,
        List.length_nil, gt_iff_lt] at hc ⊢ <;> omega
  · rw [htt1]
    split_ifs with hc <;>
      simp only [List.length_tail, List.length_append, List.length_cons,
        List.length_nil, gt_iff_lt] at hc ⊢ <;> omega
  · rw [hvv1]
    split_ifs with hc <;>
      simp only [List.length_tail, List.length_append, List.length_cons,
        List.length_nil, gt_iff_lt] at hc ⊢ <;> omega
  · rw [hp5]
    split_ifs with hm hc
    · simp only [List.length_tail, List.length_append, List.length_cons,
        List.length_nil, gt_iff_lt] at hc ⊢
      omega
    · simp only [List.length_tail, List.length_append, List.length_cons,
        List.length_nil, gt_iff_lt] at hc ⊢
      omega
    · omega
  · rw [htt5]
    split_ifs with hm hc
    · simp only [List.length_tail, List.length_append, List.length_cons,
        List.length_nil, gt_iff_lt] at hc ⊢
      omega
    · simp only [List.length_tail, List.length_append, List.length_cons,
        List.length_nil, gt_iff_lt] at hc ⊢
      omega
    · omega
  · rw [hp15]
    split_ifs with hm hc
    · simp only [List.length_tail, List.length_append, List.length_cons,
        List.length_nil, gt_iff_lt] at hc ⊢
      omega
    · simp only [List.length_tail, List.length_append, List.length_cons,
        List.length_nil, gt_iff_lt] at hc ⊢
      omega
    · omega
  · rw [htt15]
    split_ifs with hm hc
    · simp only [List.length_tail, List.length_append, List.length_cons,
        List.length_nil, gt_iff_lt] at hc ⊢
      omega
    · simp only [List.length_tail, List.length_append, List.length_cons,
        List.length_nil, gt_iff_lt] at hc ⊢
      omega
    · omega
  · rw [hp1h]
    split_ifs with hm hc
    · simp only [List.length_tail, List.length_append, List.length_cons,
        List.length_nil, gt_iff_lt] at hc ⊢
      omega
    · simp only [List.length_tail, List.length_append, List.length_cons,
        List.length_nil, gt_iff_lt] at hc ⊢
      omega
    · omega
  · rw [htt1h]
    split_ifs with hm hc
    · simp only [List.length_tail, List.length_append, List.length_cons,
        List.length_nil, gt_iff_lt] at hc ⊢
      omega
    · simp only [List.length_tail, List.length_append, List.length_cons,
        List.length_nil, gt_iff_lt] at hc ⊢
      omega
    · omega
  · intro h500
    have hne : cd.prices_1m ≠ [] := by
      intro hnil
      rw [hnil] at h500
      simp at h500
    have hc : (cd.prices_1m ++ [p]).length > 500 := by
      simp only [List.length_append, List.length_cons, List.length_nil, gt_iff_lt]
      omega
    rw [hp1, if_pos hc, List.tail_append_singleton_of_ne_nil hne]
  · intro hlt
    have hc : ¬ (cd.prices_1m ++ [p]).length > 500 := by
      simp only [List.length_append, List.length_cons, List.length_nil, gt_iff_lt]
      omega
    rw [hp1, if_neg hc]
  · intro hmod
    constructor
    · intro h200
      have hne : cd.prices_5m ≠ [] := by
        intro hnil
        rw [hnil] at h200
        simp at h200
      have hc : (cd.prices_5m ++ [p]).length > 200 := by
        simp only [List.length_append, List.length_cons, List.length_nil, gt_iff_lt]
        omega
      rw [hp5, if_pos hmod, if_pos hc, List.tail_append_singleton_of_ne_nil hne]
    · intro hlt
      have hc : ¬ (cd.prices_5m ++ [p]).length > 200 := by
        simp only [List.length_append, List.length_cons, List.length_nil, gt_iff_lt]
        omega
      rw [hp5, if_pos hmod, if_neg hc]
  · intro hmod
    rw [hp5, if_neg hmod]
  · intro hmod
    constructor
    · intro h100
      have hne : cd.prices_15m ≠ [] := by
        intro hnil
        rw [hnil] at h100
        simp at h100
      have hc : (cd.prices_15m ++ [p]).length > 100 := by
        simp only [List.length_append, List.length_cons, List.length_nil, gt_iff_lt]
        omega
      rw [hp15, if_pos hmod, if_pos hc, List.tail_append_singleton_of_ne_nil hne]
    · intro hlt
      have hc : ¬ (cd.prices_15m ++ [p]).length > 100 := by
        simp only [List.length_append, List.length_cons, List.length_nil, gt_iff_lt]
        omega
      rw [hp15, if_pos hmod, if_neg hc]
  · intro hmod
    rw [hp15, if_neg hmod]
  · intro hmod
    constructor
    · intro h50
      have hne : cd.prices_1h ≠ [] := by
        intro hnil
        rw [hnil] at h50
        simp at h50
      have hc : (cd.prices_1h ++ [p]).length > 50 := by
        simp only [List.length_append, List.length_cons, List.length_nil, gt_iff_lt]
        omega
      rw [hp1h, if_pos hmod, if_pos hc, List.tail_append_singleton_of_ne_nil hne]
    · intro hlt
      have hc : ¬ (cd.prices_1h ++ [p]).length > 50 := by
        simp only [List.length_append, List.length_cons, List.length_nil, gt_iff_lt]
        omega
      rw [hp1h, if_pos hmod, if_neg hc]
  · intro hmod
    rw [hp1h, if_neg hmod]

/-- Instantiation of `buffers_capped` at the initial coin state. -/
theorem buffers_capped_witness :
    (update_data_step initCoinData 1 "t" 2).prices_1m.length ≤ 500 :=
  (buffers_capped initCoinData 1 "t" 2 (by decide) (by decide) (by decide)
    (by decide) (by decide) (by decide) (by decide) (by decide) (by decide)).1.1

/-- One update step from a coin state whose 1-minute price buffer is at the
cap 500: the buffer stays at 500, the 5-minute buffer receives the sample
(500 is divisible by 5), and the 15-minute and 1-hour buffers are untouched
(500 is divisible by neither 15 nor 60). -/
theorem step_at_cap (cd : CoinData) (p : ℚ) (t : String) (v : ℚ)
    (h : cd.prices_1m.length = 500) :
    (update_data_step cd p t v).prices_1m.length = 500 ∧
      (update_data_step cd p t v).prices_5m =
        (if (cd.prices_5m ++ [p]).length > 200 then (cd.prices_5m ++ [p]).tail
         else cd.prices_5m ++ [p]) ∧
      (update_data_step cd p t v).prices_15m = cd.prices_15m ∧
      (update_data_step cd p t v).times_15m = cd.times_15m ∧
      (update_data_step cd p t v).prices_1h = cd.prices_1h ∧
      (update_data_step cd p t v).times_1h = cd.times_1h := by
  obtain ⟨hp1, -, -⟩ := step_1m cd p t v
  obtain ⟨hp5, -⟩ := step_5m cd p t v
  obtain ⟨hp15, htt15⟩ := step_15m cd p t v
  obtain ⟨hp1h, htt1h⟩ := step_1h cd p t v
  have hc : (cd.prices_1m ++ [p]).length > 500 := by
    simp only [List.length_append, List.length_cons, List.length_nil, gt_iff_lt]
    omega
  have hlen : (update_data_step cd p t v).prices_1m.length = 500 := by
    rw [hp1, if_pos hc]
    simp only [List.length_tail, List.length_append, List.length_cons,
      List.length_nil]
    omega
  have hmod5 : (update_data_step cd p t v).prices_1m.length % 5 = 0 := by
    rw [hlen]
  have hmod15 : ¬ (update_data_step cd p t v).prices_1m.length % 15 = 0 := by
    rw [hlen]
    decide
  have hmod60 : ¬ (update_data_step cd p t v).prices_1m.length % 60 = 0 := by
    rw [hlen]
    decide
  exact ⟨hlen, by rw [hp5, if_pos hmod5], by rw [hp15, if_neg hmod15],
    by rw [htt15, if_neg hmod15], by rw [hp1h, if_neg hmod60],
    by rw [htt1h, if_neg hmod60]⟩

/-- Iterating update steps from a coin state at the 1-minute cap: the
1-minute buffer stays at 500 and the 15-minute and 1-hour buffers are never
appended to again. -/
theorem iter_at_cap (samples : List (ℚ × String × ℚ)) :
    ∀ cd : CoinData, cd.prices_1m.length = 500 →
      (update_data_iter cd samples).prices_1m.length = 500 ∧
      (update_data_iter cd samples).prices_15m = cd.prices_15m ∧
      (update_data_iter cd samples).times_15m = cd.times_15m ∧
      (update_data_iter cd samples).prices_1h = cd.prices_1h ∧
      (update_data_iter cd samples).times_1h = cd.times_1h := by
  induction samples with
  | nil =>
    intro cd h
    exact ⟨h, rfl, rfl, rfl, rfl⟩
  | cons s rest ih =>
    intro cd h
    obtain ⟨p', t', v'⟩ := s
    have hs := step_at_cap cd p' t' v' h
    have hrec := ih (update_data_step cd p' t' v') hs.1
    simp only [update_data_iter]
    exact ⟨hrec.1, hrec.2.1.trans hs.2.2.1, hrec.2.2.1.trans hs.2.2.2.1,
      hrec.2.2.2.1.trans hs.2.2.2.2.1, hrec.2.2.2.2.trans hs.2.2.2.2.2⟩

/-- C8: once a coin's 1-minute price buffer has reached its cap of 500, one
more update keeps it at 500 and appends the sample to the 5-minute buffer
(500 is divisible by 5), and every subsequent sequence of updates leaves
the 15-minute and 1-hour buffers unchanged (500 is divisible by neither 15
nor 60), because the resampling conditions test the post-eviction buffer
length, which stays pinned at 500. -/
theorem at_cap_resampling (cd : CoinData) (p : ℚ) (t : String) (v : ℚ)
    (samples : List (ℚ × String × ℚ)) (h : cd.prices_1m.length = 500) :
    (update_data_step cd p t v).prices_1m.length = 500 ∧
      (update_data_step cd p t v).prices_5m =
        (if (cd.prices_5m ++ [p]).length > 200 then (cd.prices_5m ++ [p]).tail
         else cd.prices_5m ++ [p]) ∧
      (update_data_step cd p t v).prices_15m = cd.prices_15m ∧
      (update_data_step cd p t v).times_15m = cd.times_15m ∧
      (update_data_step cd p t v).prices_1h = cd.prices_1h ∧
      (update_data_step cd p t v).times_1h = cd.times_1h ∧
      (update_data_iter cd samples).prices_1m.length = 500 ∧
      (update_data_iter cd samples).prices_15m = cd.prices_15m ∧
      (update_data_iter cd samples).times_15m = cd.times_15m ∧
      (update_data_iter cd samples).prices_1h = cd.prices_1h ∧
      (update_data_iter cd samples).times_1h = cd.times_1h := by
  obtain ⟨a1, a2, a3, a4, a5, a6⟩ := step_at_cap cd p t v h
  obtain ⟨b1, b2, b3, b4, b5⟩ := iter_at_cap samples cd h
  exact ⟨a1, a2, a3, a4, a5, a6, b1, b2, b3, b4, b5⟩

/-- Instantiation of `at_cap_resampling` at a concrete coin state whose
1-minute buffer holds 500 samples. -/
theorem at_cap_resampling_witness :
    (update_data_step
        { initCoinData with prices_1m := List.replicate 500 1 } 1 "t" 2
      ).prices_1m.length = 500 :=
  (at_cap_resampling { initCoinData with prices_1m := List.replicate 500 1 }
    1 "t" 2 [] (by exact List.length_replicate 500 1)).1

/-- C5: for every non-empty price list and every period, `ema prices period`
equals the textbook Exponential Moving Average with smoothing factor
`a = 2/(period+1)`, defined by `E_0 = p_0` and
`E_i = a * p_i + (1 - a) * E_(i-1)`, returning the final `E`; for the empty
list it returns 0. -/
theorem ema_matches_textbook (prices : List ℚ) (period : Nat) :
    ema prices period = emaSpec prices period ∧
      (prices = [] → ema prices period = 0) := by
  constructor
  · cases prices with
    | nil => rfl
    | cons p rest =>
      simp only [ema, emaSpec]
      exact emaSpecGo_foldl _ rest p
  · intro h
    subst h
    rfl

/-- Instantiation of `ema_matches_textbook` at a concrete input. -/
theorem ema_matches_textbook_witness :
    ema [1, 2, 4] 12 = emaSpec [1, 2, 4] 12 ∧
      (([1, 2, 4] : List ℚ) = [] → ema [1, 2, 4] 12 = 0) :=
  ema_matches_textbook [1, 2, 4] 12

/-- A 15-price input whose last 14 deltas are `[1, 1, -2, 0, ..., 0]`: two
positive deltas and one negative delta of equal total magnitude. -/
def rsiCounterPrices : List ℚ :=
  [10, 11, 12, 10, 10, 10, 10, 10, 10, 10, 10, 10, 10, 10, 10]

/-- C2 counterexample: on `rsiCounterPrices` (length 15 ≥ 14 + 1) the code
returns `100/3` while the textbook period-average formula of the claim
gives 50, because the code averages the gains over the number of positive
deltas (2) and the losses over the number of negative deltas (1) instead of
dividing both by the period. -/
theorem rsi_not_textbook :
    rsiCounterPrices.length ≥ 14 + 1 ∧
      rsi rsiCounterPrices 14 = 100/3 ∧
      rsiSpec rsiCounterPrices 14 = 50 ∧
      rsi rsiCounterPrices 14 ≠ rsiSpec rsiCounterPrices 14 := by
  refine ⟨by norm_num [rsiCounterPrices], ?_, ?_, ?_⟩
  · norm_num [rsi, npDiff, lastSlice, npMean, rsiCounterPrices]
    simp
    norm_num
  · norm_num [rsiSpec, npDiff, lastSlice, rsiCounterPrices]
  · norm_num [rsi, rsiSpec, npDiff, lastSlice, npMean, rsiCounterPrices]
    simp
    norm_num

/-- C2 amended: for every price list with at least `period + 1` elements,
`rsi` returns `100 - 100 / (1 + RS)` where `RS` is the ratio of the
arithmetic mean of the strictly positive deltas among the last `period`
deltas (0 when there are none) to the arithmetic mean of the magnitudes of
the strictly negative deltas among the last `period` deltas (the fallback
0.001 when there are none). -/
theorem rsi_matches_amended (prices : List ℚ) (period : Nat)
    (h : period + 1 ≤ prices.length) :
    rsi prices period = rsiAmendedSpec prices period := by
  have hg : ¬ prices.length < period + 1 := by omega
  simp only [rsi, rsiAmendedSpec, if_neg hg]
  rw [filter_pos_map_neg (lastSlice (npDiff prices) period)]
  set posD := (lastSlice (npDiff prices) period).filter (fun d => 0 < d) with hpos
  set negD := (lastSlice (npDiff prices) period).filter (fun d => d < 0) with hneg
  have hmapnil : negD.map (fun d => -d) = [] ↔ negD = [] := by
    simp
  by_cases hn : negD = []
  · simp only [hn, List.map_nil, ne_eq, not_true_eq_false, if_false, if_pos rfl]
    rw [if_neg (by norm_num : ¬ (1/1000 : ℚ) = 0)]
    by_cases hp : posD = []
    · simp [hp, npMean]
    · simp [hp, npMean]
  · have hmn : ¬ negD.map (fun d => -d) = [] := fun hc => hn (hmapnil.mp hc)
    simp only [ne_eq, hmn, not_false_eq_true, if_true, if_neg hn]
    have hloss : 0 < npMean (negD.map fun d => -d) := by
      refine npMean_pos _ hmn ?_
      intro x hx
      obtain ⟨d, hd, rfl⟩ := List.mem_map.mp hx
      have := List.of_mem_filter hd
      have hd0 : d < 0 := by simpa using this
      linarith
    rw [if_neg (ne_of_gt hloss)]
    have hlen : (negD.map (fun d => -d)).length = negD.length := List.length_map _ _
    by_cases hp : posD = []
    · simp [hp, npMean, hlen]
    · simp [hp, npMean, hlen]

/-- Instantiation of `rsi_matches_amended` at a concrete input. -/
theorem rsi_matches_amended_witness :
    rsi [1, 2] 1 = rsiAmendedSpec [1, 2] 1 :=
  rsi_matches_amended [1, 2] 1 (by norm_num)

/-- C4: for every price list and every period, `rsi prices period` lies in
the closed interval `[0, 100]`, and it is the neutral 50 whenever fewer
than `period + 1` prices are available. -/
theorem rsi_bounded (prices : List ℚ) (period : Nat) :
    0 ≤ rsi prices period ∧ rsi prices period ≤ 100 ∧
      (prices.length < period + 1 → rsi prices period = 50) := by
  by_cases h1 : prices.length < period + 1
  · simp only [rsi, if_pos h1]
    norm_num
  · simp only [rsi, if_neg h1]
    have hgain := rsi_gain_nonneg (lastSlice (npDiff prices) period)
    have hloss := rsi_loss_pos ((lastSlice (npDiff prices) period).map (fun d => -d))
    set g : ℚ :=
      (if ((lastSlice (npDiff prices) period).filter (fun d => 0 < d)) ≠ [] then
        npMean ((lastSlice (npDiff prices) period).filter (fun d => 0 < d))
      else 0) with hgdef
    set l : ℚ :=
      (if (((lastSlice (npDiff prices) period).map (fun d => -d)).filter
            (fun d => 0 < d)) ≠ [] then
        npMean (((lastSlice (npDiff prices) period).map (fun d => -d)).filter
          (fun d => 0 < d))
      else 1/1000) with hldef
    rw [if_neg (ne_of_gt hloss)]
    have hrs : 0 ≤ g / l := div_nonneg hgain (le_of_lt hloss)
    refine ⟨?_, ?_, fun hc => absurd hc h1⟩
    · have h1rs : (1 : ℚ) ≤ 1 + g / l := by linarith
      have hdiv : 100 / (1 + g / l) ≤ 100 := div_le_self (by norm_num) h1rs
      linarith
    · have h1rs : (0 : ℚ) < 1 + g / l := by linarith
      have hdiv : 0 < 100 / (1 + g / l) := div_pos (by norm_num) h1rs
      linarith

/-- Instantiation of `rsi_bounded` at a concrete input. -/
theorem rsi_bounded_witness :
    0 ≤ rsi [3] 14 ∧ rsi [3] 14 ≤ 100 ∧
      (([3] : List ℚ).length < 14 + 1 → rsi [3] 14 = 50) :=
  rsi_bounded [3] 14

/-- C9: whenever a coin's 1-minute price buffer holds fewer than 60
samples, `predict_signal` returns exactly the bootstrap result
`("Collecting data...", 0, "text-warning", [])`. -/
theorem predict_signal_bootstrap (coin_data : CoinData) (fg : ℤ)
    (h : coin_data.prices_1m.length < 60) :
    predict_signal coin_data fg = ("Collecting data...", 0, "text-warning", []) := by
  simp [predict_signal, h]

/-- Instantiation of `predict_signal_bootstrap` at the initial coin state. -/
theorem predict_signal_bootstrap_witness :
    predict_signal initCoinData 50 = ("Collecting data...", 0, "text-warning", []) :=
  predict_signal_bootstrap initCoinData 50 (by decide)

/-- C10: the probability component of `predict_signal` is always in
`[0, 99]`: it is `min 99 |score|` for the STRONG BUY, Bullish, STRONG SELL
and Bearish signals, the fixed 25 for Neutral, and 0 while data is being
collected. -/
theorem predict_signal_prob_range (coin_data : CoinData) (fg : ℤ) :
    0 ≤ (predict_signal coin_data fg).2.1 ∧
      (predict_signal coin_data fg).2.1 ≤ 99 ∧
      ((predict_signal coin_data fg).1 = "Collecting data..." →
        (predict_signal coin_data fg).2.1 = 0) ∧
      ((predict_signal coin_data fg).1 = "Neutral" →
        (predict_signal coin_data fg).2.1 = 25) ∧
      (((predict_signal coin_data fg).1 = "STRONG BUY" ∨
        (predict_signal coin_data fg).1 = "Bullish" ∨
        (predict_signal coin_data fg).1 = "STRONG SELL" ∨
        (predict_signal coin_data fg).1 = "Bearish") →
        (predict_signal coin_data fg).2.1 = min 99 |(signal_score coin_data fg).1|) := by
  have hCN : ¬("Collecting data..." : String) = "Neutral" := by decide
  have hCB : ¬("Collecting data..." : String) = "STRONG BUY" := by decide
  have hCU : ¬("Collecting data..." : String) = "Bullish" := by decide
  have hCS : ¬("Collecting data..." : String) = "STRONG SELL" := by decide
  have hCE : ¬("Collecting data..." : String) = "Bearish" := by decide
  have hBC : ¬("STRONG BUY" : String) = "Collecting data..." := by decide
  have hBN : ¬("STRONG BUY" : String) = "Neutral" := by decide
  have hUC : ¬("Bullish" : String) = "Collecting data..." := by decide
  have hUN : ¬("Bullish" : String) = "Neutral" := by decide
  have hSC : ¬("STRONG SELL" : String) = "Collecting data..." := by decide
  have hSN : ¬("STRONG SELL" : String) = "Neutral" := by decide
  have hEC : ¬("Bearish" : String) = "Collecting data..." := by decide
  have hEN : ¬("Bearish" : String) = "Neutral" := by decide
  have hNC : ¬("Neutral" : String) = "Collecting data..." := by decide
  have hNB : ¬("Neutral" : String) = "STRONG BUY" := by decide
  have hNU : ¬("Neutral" : String) = "Bullish" := by decide
  have hNS : ¬("Neutral" : String) = "STRONG SELL" := by decide
  have hNE : ¬("Neutral" : String) = "Bearish" := by decide
  simp only [predict_signal]
  split_ifs with h1 h2 h3 h4 h5
  · exact ⟨by norm_num, by norm_num, fun _ => rfl,
      fun hc => absurd hc hCN, fun hc => by
        rcases hc with hc | hc | hc | hc
        · exact absurd hc hCB
        · exact absurd hc hCU
        · exact absurd hc hCS
        · exact absurd hc hCE⟩
  · exact ⟨le_min (by norm_num) (abs_nonneg _), min_le_left _ _,
      fun hc => absurd hc hBC, fun hc => absurd hc hBN, fun _ => rfl⟩
  · exact ⟨le_min (by norm_num) (abs_nonneg _), min_le_left _ _,
      fun hc => absurd hc hUC, fun hc => absurd hc hUN, fun _ => rfl⟩
  · exact ⟨le_min (by norm_num) (abs_nonneg _), min_le_left _ _,
      fun hc => absurd hc hSC, fun hc => absurd hc hSN, fun _ => rfl⟩
  · exact ⟨le_min (by norm_num) (abs_nonneg _), min_le_left _ _,
      fun hc => absurd hc hEC, fun hc => absurd hc hEN, fun _ => rfl⟩
  · exact ⟨by norm_num, by norm_num, fun hc => absurd hc hNC,
      fun _ => rfl, fun hc => by
        rcases hc with hc | hc | hc | hc
        · exact absurd hc hNB
        · exact absurd hc hNU
        · exact absurd hc hNS
        · exact absurd hc hNE⟩

/-- Instantiation of `predict_signal_prob_range` at the initial coin state. -/
theorem predict_signal_prob_range_witness :
    0 ≤ (predict_signal initCoinData 50).2.1 ∧
      (predict_signal initCoinData 50).2.1 ≤ 99 ∧
      ((predict_signal initCoinData 50).1 = "Collecting data..." →
        (predict_signal initCoinData 50).2.1 = 0) ∧
      ((predict_signal initCoinData 50).1 = "Neutral" →
        (predict_signal initCoinData 50).2.1 = 25) ∧
      (((predict_signal initCoinData 50).1 = "STRONG BUY" ∨
        (predict_signal initCoinData 50).1 = "Bullish" ∨
        (predict_signal initCoinData 50).1 = "STRONG SELL" ∨
        (predict_signal initCoinData 50).1 = "Bearish") →
        (predict_signal initCoinData 50).2.1 =
          min 99 |(signal_score initCoinData 50).1|) :=
  predict_signal_prob_range initCoinData 50

/-- C3: whenever a remote call fails for any reason, the fetching functions
return defaults instead of raising: `get_prices` returns three empty dicts
both when the request or parse raises and when the processing of a fetched
item raises, and `get_fear_greed` returns 50; being total Lean functions,
neither propagates an exception to the caller. -/
theorem fetch_failures_return_defaults :
    (∀ e : String, get_prices (Except.error e) = ([], [], [])) ∧
      (∀ (items : List MarketItem) (e : String),
        get_prices_go items ([], [], []) = Except.error e →
        get_prices (Except.ok items) = ([], [], [])) ∧
      (∀ e : String, get_fear_greed (Except.error e) = 50) := by
  refine ⟨fun e => rfl, fun items e hfail => ?_, fun e => rfl⟩
  simp only [get_prices, Except.bind, hfail]

/-- Instantiation of `fetch_failures_return_defaults`: a timed-out price
request, a malformed market item (missing `symbol` key), and a failed
fear/greed parse all map to the defaults. -/
theorem fetch_failures_return_defaults_witness :
    get_prices (Except.error "ReadTimeout") = ([], [], []) ∧
      get_prices (Except.ok [⟨none, some 7, none, none⟩]) = ([], [], []) ∧
      get_fear_greed (Except.error "KeyError") = 50 :=
  ⟨fetch_failures_return_defaults.1 "ReadTimeout",
   fetch_failures_return_defaults.2.1 [⟨none, some 7, none, none⟩]
     "KeyError: symbol" rfl,
   fetch_failures_return_defaults.2.2 "KeyError"⟩

/-- C7: the read paths leave the shared per-coin buffers unchanged: the
`/api/data` handler and the calls to `predict_signal`, `rsi` and `ema`
return the application state exactly as they received it, so every coin's
price, time and volume buffers are untouched; only `update_data_step`
(the update loop) produces a new state. -/
theorem read_paths_preserve_state (s : AppState) (coin_data : CoinData)
    (prices : List ℚ) (period : Nat) (fg : ℤ) :
    (api_data s).1 = s ∧ (predict_signalS s coin_data fg).1 = s ∧
      (rsiS s prices period).1 = s ∧ (emaS s prices period).1 = s ∧
      (∀ coin, dictGet? (api_data s).1.data coin = dictGet? s.data coin) ∧
      (∀ coin cd, dictGet? s.data coin = some cd →
        ((predict_signalS s coin_data fg).1.data.lookup coin =
          s.data.lookup coin)) :=
  ⟨rfl, rfl, rfl, rfl, fun _ => rfl, fun _ _ _ => rfl⟩

/-- Every effect produced by the per-coin loop is a fear/greed request:
the loop never re-issues the price request and never sleeps. -/
theorem update_data_coins_all_fng (prices : List (String × Option ℚ))
    (volumes : List (String × ℚ)) (now : String) :
    ∀ (coins : List String) (d : List (String × CoinData)),
      ∀ e ∈ (update_data_coins prices volumes now coins d).2,
        e = Effect.http_get fngURL := by
  intro coins
  induction coins with
  | nil =>
    intro d e he
    simp only [update_data_coins, List.not_mem_nil] at he
  | cons c rest ih =>
    intro d e he
    simp only [update_data_coins] at he
    cases hm : (dictGet? prices c).bind (fun x => x) with
    | none =>
      rw [hm] at he
      exact ih d e he
    | some price =>
      rw [hm] at he
      simp only [List.mem_append] at he
      rcases he with he | he
      · split_ifs at he with hc
        · simp at he
        · simpa using he
      · exact ih _ e he

/-- C6: in every iteration of the update loop, whatever the outcome of the
remote calls (success, failure, rate-limiting), the CoinGecko price request
is issued exactly once (never retried within the iteration), the only sleep
in the iteration is the single fixed `CHECK_INTERVAL` sleep (no growing
backoff), that sleep ends the iteration, and `CHECK_INTERVAL` is 15
seconds. -/
theorem fixed_sleep_no_retry (d : List (String × CoinData))
    (fetchP : Except String (List MarketItem)) (now : String) :
    (update_data_iteration d fetchP now).2.count
        (Effect.http_get coingeckoURL) = 1 ∧
      (update_data_iteration d fetchP now).2.filter Effect.isSleep =
        [Effect.sleep CHECK_INTERVAL] ∧
      (update_data_iteration d fetchP now).2.getLast? =
        some (Effect.sleep CHECK_INTERVAL) ∧
      CHECK_INTERVAL = 15 := by
  have hmid := update_data_coins_all_fng (get_prices fetchP).1
    (get_prices fetchP).2.2 now COINSkeys d
  set mid := (update_data_coins (get_prices fetchP).1 (get_prices fetchP).2.2
    now COINSkeys d).2 with hmiddef
  have htr : (update_data_iteration d fetchP now).2 =
      Effect.http_get coingeckoURL :: Effect.http_get fngURL ::
        (mid ++ [Effect.sleep CHECK_INTERVAL]) := rfl
  rw [htr]
  refine ⟨?_, ?_, ?_, rfl⟩
  · have hnot : Effect.http_get coingeckoURL ∉
        Effect.http_get fngURL :: (mid ++ [Effect.sleep CHECK_INTERVAL]) := by
      intro hmem
      rcases List.mem_cons.mp hmem with hh | hh
      · exact absurd hh (by decide)
      · rcases List.mem_append.mp hh with hh' | hh'
        · exact absurd (hmid _ hh') (by decide)
        · exact absurd (List.mem_singleton.mp hh') (by decide)
    rw [List.count_cons_self, List.count_eq_zero.mpr hnot]
  · have hfmid : mid.filter Effect.isSleep = [] := by
      rw [List.filter_eq_nil_iff]
      intro a ha
      rw [hmid a ha]
      decide
    simp [List.filter_cons, List.filter_append, hfmid, Effect.isSleep]
  · rw [show Effect.http_get coingeckoURL :: Effect.http_get fngURL ::
        (mid ++ [Effect.sleep CHECK_INTERVAL]) =
        (Effect.http_get coingeckoURL :: Effect.http_get fngURL :: mid) ++
          [Effect.sleep CHECK_INTERVAL] by simp]
    exact List.getLast?_concat _

/-- Instantiation of `read_paths_preserve_state` at a concrete state. -/
theorem read_paths_preserve_state_witness :
    (api_data ⟨[("BTC", initCoinData)], ⟨[], 50, [], ""⟩⟩).1 =
        ⟨[("BTC", initCoinData)], ⟨[], 50, [], ""⟩⟩ ∧
      (predict_signalS ⟨[("BTC", initCoinData)], ⟨[], 50, [], ""⟩⟩
          initCoinData 50).1 = ⟨[("BTC", initCoinData)], ⟨[], 50, [], ""⟩⟩ ∧
      (rsiS ⟨[("BTC", initCoinData)], ⟨[], 50, [], ""⟩⟩ [1] 14).1 =
        ⟨[("BTC", initCoinData)], ⟨[], 50, [], ""⟩⟩ ∧
      (emaS ⟨[("BTC", initCoinData)], ⟨[], 50, [], ""⟩⟩ [1] 14).1 =
        ⟨[("BTC", initCoinData)], ⟨[], 50, [], ""⟩⟩ ∧
      (∀ coin,
        dictGet? (api_data ⟨[("BTC", initCoinData)], ⟨[], 50, [], ""⟩⟩).1.data
            coin =
          dictGet? [("BTC", initCoinData)] coin) ∧
      (∀ coin cd, dictGet? [("BTC", initCoinData)] coin = some cd →
        ((predict_signalS ⟨[("BTC", initCoinData)], ⟨[], 50, [], ""⟩⟩
            initCoinData 50).1.data.lookup coin =
          ([("BTC", initCoinData)] : List (String × CoinData)).lookup coin)) :=
  read_paths_preserve_state ⟨[("BTC", initCoinData)], ⟨[], 50, [], ""⟩⟩
    initCoinData [1] 14 50

end CryptoBit
